import Mathlib

/-
Verification of the request-capture and panic-interception layer of the
raven error-reporting client (source file: http.go, package raven).

The Go code is shallowly embedded: Go maps of type map[string][]string are
modelled as association lists, and the in-place mutation performed by
sanitizeValues is made explicit by returning the updated map (for NewHttp,
the updated request).  The external collaborators named by the design
document (packet assembly, stack walking, transport) are modelled as an
event log recorded by the two handler wrappers.
-/

set_option autoImplicit false

namespace Raven

/-- A Go map from string to string slice (url.Values / http.Header),
modelled as an association list of entries. -/
abbrev Smap := List (String × List String)

/-- Model of Go Char lowering as used by strings.ToLower: lower the ASCII
range (Char.toLower maps A..Z to a..z and keeps every other character). -/
def goToLower (s : String) : String :=
  ⟨s.data.map Char.toLower⟩

/-- pat is a prefix of the second list. -/
def startsWithList : List Char → List Char → Bool
  | [], _ => true
  | _ :: _, [] => false
  | p :: ps, c :: cs => p == c && startsWithList ps cs

/-- pat occurs as a contiguous sublist. -/
def hasSubList (pat : List Char) : List Char → Bool
  | [] => pat.isEmpty
  | c :: rest => startsWithList pat (c :: rest) || hasSubList pat rest

/-- Model of Go strings.Contains(s, substr). -/
def goContains (s substr : String) : Bool :=
  hasSubList substr.data s.data

/-- The redaction placeholder written by sanitizeValues. -/
def mask : String := "********"

/-- The initial value of the package-level variable querySecretFields.
The variable itself is threaded explicitly through every definition that
reads it, since registration mutates process-wide state. -/
def querySecretFields : List String :=
  ["password", "passphrase", "passwd", "secret"]

/-- The match test of sanitizeValues for one keyword and one map key:
strings.Contains(strings.ToLower(field), strings.ToLower(keyword)). -/
def fieldMatches (keyword field : String) : Bool :=
  goContains (goToLower field) (goToLower keyword)

/-- The effect of the inner loop body of sanitizeValues on one entry for a
fixed keyword: a matching key has its whole value list replaced. -/
def redactOne (keyword : String) (kv : String × List String) : String × List String :=
  if fieldMatches keyword kv.1 then (kv.1, [mask]) else kv

/-- Model of sanitizeValues: the outer loop ranges over the keywords, the
inner loop ranges over the entries of the map and assigns in place; an
assignment to an existing key during range iteration is an entrywise
update, so one outer step is a map over the entries. -/
def sanitizeValues (flds : List String) (query : Smap) : Smap :=
  flds.foldl (fun q keyword => q.map (redactOne keyword)) query

/-- Model of AddSanitizeField: appends the field to querySecretFields. -/
def AddSanitizeField (flds : List String) (field : String) : List String :=
  flds ++ [field]

/-- Derived matching predicate: the key matches at least one registered
keyword (the net condition under which the nested loops overwrite it). -/
def shouldRedact (flds : List String) (field : String) : Bool :=
  flds.any (fun keyword => fieldMatches keyword field)

/-- Entrywise description of the net effect of sanitizeValues. -/
def redactEntry (flds : List String) (kv : String × List String) : String × List String :=
  if shouldRedact flds kv.1 then (kv.1, [mask]) else kv

/-- Index of the first occurrence of a character, if any. -/
def indexOfChar : List Char → Char → Option Nat
  | [], _ => none
  | x :: xs, c => if x == c then some 0 else (indexOfChar xs c).map (· + 1)

/-- Index of the last occurrence of a character, if any
(the helper named last in the Go net package). -/
def lastIndexOf (l : List Char) (c : Char) : Option Nat :=
  match indexOfChar l.reverse c with
  | some j => some (l.length - 1 - j)
  | none => none

/-- Final checks of SplitHostPort: no bracket characters may remain after
position j resp. k; on success the port is everything after the last colon. -/
def splitHostPortFinish (s : List Char) (j k i : Nat) (host : List Char) :
    Option (String × String) :=
  if (indexOfChar (s.drop j) '[').isSome then none
  else if (indexOfChar (s.drop k) ']').isSome then none
  else some (⟨host⟩, ⟨s.drop (i + 1)⟩)

/-- Model of Go net.SplitHostPort (stdlib).  Every error return of the Go
function is collapsed to none, since NewHttp only branches on err == nil.
Go indexes bytes; the model indexes characters, which agrees on the ASCII
strings the function is about. -/
def splitHostPort (hostport : String) : Option (String × String) :=
  let s := hostport.data
  match lastIndexOf s ':' with
  | none => none
  | some i =>
    match s with
    | [] => none
    | c0 :: _ =>
      if c0 == '[' then
        match indexOfChar s ']' with
        | none => none
        | some endi =>
          if endi + 1 = s.length then none
          else if endi + 1 = i then
            splitHostPortFinish s 1 (endi + 1) i ((s.drop 1).take (endi - 1))
          else
            -- both remaining Go branches (a colon right after the bracket,
            -- or none) are errors
            none
      else
        let host := s.take i
        if (indexOfChar host ':').isSome then none
        else splitHostPortFinish s 0 0 i host

/-- Unreserved query bytes of Go url.QueryEscape: alphanumerics and the
four marks dash, underscore, dot, tilde stay unescaped. -/
def isUnreservedByte (n : Nat) : Bool :=
  (65 ≤ n && n ≤ 90) || (97 ≤ n && n ≤ 122) || (48 ≤ n && n ≤ 57) ||
    n == 45 || n == 46 || n == 95 || n == 126

/-- Uppercase hex digits used by percent escaping. -/
def hexUpper : List Char := "0123456789ABCDEF".data

/-- Model of Go url.QueryEscape: work over the UTF-8 bytes, turn a space
into a plus, keep unreserved bytes, percent-escape the rest. -/
def queryEscape (s : String) : String :=
  ⟨(s.data.flatMap String.utf8EncodeChar).flatMap fun b =>
    let n := b.toNat
    if n == 32 then ['+']
    else if isUnreservedByte n then [Char.ofNat n]
    else ['%', hexUpper.getD (n / 16) '0', hexUpper.getD (n % 16) '0']⟩

/-- Insertion step of the key sort performed by url.Values.Encode. -/
def insertSorted (kv : String × List String) : Smap → Smap
  | [] => [kv]
  | x :: xs =>
    match compare kv.1 x.1 with
    | .gt => x :: insertSorted kv xs
    | _ => kv :: x :: xs

/-- Sort the entries by key (sort.Strings over the key set in Go). -/
def sortByKey (l : Smap) : Smap :=
  l.foldr insertSorted []

/-- Model of url.Values.Encode: sort by key, escape key and value, join
every key=value pair with ampersands. -/
def urlValuesEncode (v : Smap) : String :=
  String.intercalate "&"
    ((sortByKey v).flatMap fun kv => kv.2.map fun x => queryEscape kv.1 ++ "=" ++ queryEscape x)

/-- The request data NewHttp reads.  TLS models req.TLS != nil.  Query
models the fresh map req.URL.Query() returns: Go parses it anew from the
raw query string on every call, so redacting that map never changes the
view any later caller of req.URL.Query() obtains.  Header is the one map
the request itself owns and shares with NewHttp. -/
structure Request where
  Method : String
  TLS : Bool
  Host : String
  Path : String
  Query : Smap
  Header : Smap
  RemoteAddr : String
deriving DecidableEq

/-- Model of req.Header.Get(key): first value of the entry, empty string
when the key is absent (keys are stored in canonical form). -/
def headerGet (h : Smap) (key : String) : String :=
  match h.find? (fun kv => kv.1 == key) with
  | some (_, v :: _) => v
  | _ => ""

/-- The Http context record of http.go.  Env is nil until the peer address
parses, hence an Option; Data is never populated by this layer. -/
structure Http where
  URL : String
  Method : String
  Query : String
  Cookies : String
  Headers : List (String × String)
  Env : Option (List (String × String))
  Data : Option String
deriving DecidableEq

/-- Http.Class from http.go. -/
def Http.Class (_ : Http) : String := "request"

/-- Model of NewHttp.  The second component is the request as the caller
sees it after the call: sanitizeValues(req.Header) mutates the header map
the request owns, while sanitizeValues(req.URL.Query()) mutates only the
fresh copy Query() returned.  Cookies is read from the header map in the
composite literal, before the header loop runs. -/
def NewHttp (flds : List String) (req : Request) : Http × Request :=
  let proto := if req.TLS || (headerGet req.Header "X-Forwarded-Proto" == "https")
    then "https" else "http"
  let sanitizedHeader := sanitizeValues flds req.Header
  let h : Http :=
    { Method := req.Method
      Cookies := headerGet req.Header "Cookie"
      Query := urlValuesEncode (sanitizeValues flds req.Query)
      URL := proto ++ "://" ++ req.Host ++ req.Path
      Headers := sanitizedHeader.map fun kv => (kv.1, String.intercalate "," kv.2)
      Env :=
        match splitHostPort req.RemoteAddr with
        | some (addr, port) => some [("REMOTE_ADDR", addr), ("REMOTE_PORT", port)]
        | none => none
      Data := none }
  (h, { req with Header := sanitizedHeader })

/-- A Go panic value as seen by recover: either nil or a non-nil value,
identified by its fmt.Sprint rendering. -/
inductive PanicValue where
  | nil : PanicValue
  | value (sprint : String) : PanicValue
deriving DecidableEq

/-- What a wrapped handler invocation does: return normally or panic. -/
inductive HandlerOutcome where
  | normal : HandlerOutcome
  | panics (v : PanicValue) : HandlerOutcome
deriving DecidableEq

/-- Modelled from the spec: NewPacket, NewException, NewStacktrace and
Capture are code of this repository outside the captured source file.  Per
the design document they are external collaborators called with (message,
exception record, request context); a packet is that triple, with the
exception record reduced to the message of errors.New(rvalStr). -/
structure Packet where
  message : String
  exceptionMessage : String
  context : Http
deriving DecidableEq

/-- http.StatusInternalServerError. -/
def StatusInternalServerError : Nat := 500

/-- Observable behaviour of one call of a wrapped handler: the outcome the
wrapper itself presents to its caller, the packets handed to Capture in
order, and the status codes written by the wrapper. -/
structure WrapperResult where
  outcome : HandlerOutcome
  captured : List Packet
  statusWrites : List Nat
deriving DecidableEq

/-- Model of RecoveryHandler.  The deferred function calls recover, which
always stops an in-flight panic; its result is nil either when the handler
returned normally or when the panic value itself was nil (pre-1.21 Go
semantics, current when this code was written), and only a non-nil result
is reported and answered with a 500. -/
def RecoveryHandler (flds : List String) (handler : Request → HandlerOutcome)
    (r : Request) : WrapperResult :=
  match handler r with
  | .normal => { outcome := .normal, captured := [], statusWrites := [] }
  | .panics .nil => { outcome := .normal, captured := [], statusWrites := [] }
  | .panics (.value s) =>
    { outcome := .normal
      captured := [{ message := s, exceptionMessage := s, context := (NewHttp flds r).1 }]
      statusWrites := [StatusInternalServerError] }

/-- Model of ReportHandler: as RecoveryHandler, but the deferred function
ends with panic(rval), re-raising the original non-nil value; a nil panic
value skips the whole branch and is therefore swallowed here too. -/
def ReportHandler (flds : List String) (handler : Request → HandlerOutcome)
    (r : Request) : WrapperResult :=
  match handler r with
  | .normal => { outcome := .normal, captured := [], statusWrites := [] }
  | .panics .nil => { outcome := .normal, captured := [], statusWrites := [] }
  | .panics (.value s) =>
    { outcome := .panics (.value s)
      captured := [{ message := s, exceptionMessage := s, context := (NewHttp flds r).1 }]
      statusWrites := [StatusInternalServerError] }

/-- A plain request over http with a parseable peer address. -/
def reqPlain : Request :=
  { Method := "GET", TLS := false, Host := "example.com", Path := "/",
    Query := [], Header := [], RemoteAddr := "203.0.113.5:54321" }

/-- A TLS-terminated request. -/
def reqTLS : Request :=
  { Method := "GET", TLS := true, Host := "example.com", Path := "/a",
    Query := [], Header := [], RemoteAddr := "" }

/-- A request behind a proxy that set X-Forwarded-Proto. -/
def reqFwd : Request :=
  { Method := "GET", TLS := false, Host := "example.com", Path := "/b",
    Query := [], Header := [("X-Forwarded-Proto", ["https"])], RemoteAddr := "" }

/-- A request whose peer address does not parse as host:port. -/
def reqBadAddr : Request :=
  { Method := "GET", TLS := false, Host := "example.com", Path := "/",
    Query := [], Header := [], RemoteAddr := "not-an-address" }

/-- A request carrying a header whose name matches a seeded fragment. -/
def reqPw : Request :=
  { Method := "GET", TLS := false, Host := "example.com", Path := "/",
    Query := [], Header := [("Password", ["hunter2"])], RemoteAddr := "" }

/-- A request with an empty method string. -/
def reqEmptyMethod : Request :=
  { Method := "", TLS := false, Host := "example.com", Path := "/",
    Query := [], Header := [], RemoteAddr := "" }

/-- A handler that panics with the non-nil value "boom". -/
def boomHandler : Request → HandlerOutcome := fun _ => .panics (.value "boom")

/-- A handler that panics with a nil panic value. -/
def panicNilHandler : Request → HandlerOutcome := fun _ => .panics .nil

theorem sanitizeValues_nil (m : Smap) : sanitizeValues [] m = m := rfl

theorem sanitizeValues_cons (w : String) (ws : List String) (m : Smap) :
    sanitizeValues (w :: ws) m = sanitizeValues ws (m.map (redactOne w)) := rfl

theorem redactEntry_nil (kv : String × List String) : redactEntry [] kv = kv := rfl

theorem redactEntry_comp (w : String) (ws : List String) (kv : String × List String) :
    redactEntry ws (redactOne w kv) = redactEntry (w :: ws) kv := by
  by_cases h : fieldMatches w kv.1
  · have hcons : shouldRedact (w :: ws) kv.1 = true := by
      simp [shouldRedact, List.any_cons, h]
    simp only [redactOne, redactEntry, h, if_true, hcons]
    by_cases h2 : shouldRedact ws (kv.1, [mask]).1 <;> simp [h2]
  · have hcons : shouldRedact (w :: ws) kv.1 = shouldRedact ws kv.1 := by
      simp [shouldRedact, List.any_cons, h]
    simp [redactOne, redactEntry, h, hcons]

/-- Characterisation: the nested loops of sanitizeValues amount to the
entrywise redaction map. -/
theorem sanitizeValues_eq_map (flds : List String) (m : Smap) :
    sanitizeValues flds m = m.map (redactEntry flds) := by
  induction flds generalizing m with
  | nil =>
    rw [sanitizeValues_nil]
    have : ∀ kv ∈ m, redactEntry [] kv = kv := fun kv _ => redactEntry_nil kv
    rw [List.map_congr_left this, List.map_id']
  | cons w ws ih =>
    rw [sanitizeValues_cons, ih, List.map_map]
    exact List.map_congr_left fun kv _ => redactEntry_comp w ws kv

theorem redactEntry_fst (flds : List String) (kv : String × List String) :
    (redactEntry flds kv).1 = kv.1 := by
  unfold redactEntry; split <;> rfl

theorem redactEntry_idem (flds : List String) (kv : String × List String) :
    redactEntry flds (redactEntry flds kv) = redactEntry flds kv := by
  by_cases h : shouldRedact flds kv.1 <;> simp [redactEntry, h]

theorem shouldRedact_append (flds : List String) (F k : String) :
    shouldRedact (AddSanitizeField flds F) k = (shouldRedact flds k || fieldMatches F k) := by
  simp [AddSanitizeField, shouldRedact, List.any_append]

/-- Claim C1: for every map and every state of the fragment list,
sanitizeValues replaces the whole value list of every key whose lowered
name contains some lowered registered fragment with the single-element
list containing the placeholder, leaves every other entry unchanged, and
the match is insensitive to the case of the key and of the fragments. -/
theorem sanitizeValues_redaction_spec (flds flds' : List String) (m : Smap) (k k' : String)
    (hk : goToLower k = goToLower k')
    (hw : flds.map goToLower = flds'.map goToLower) :
    sanitizeValues flds m = m.map (redactEntry flds)
  ∧ shouldRedact flds k = shouldRedact flds k'
  ∧ shouldRedact flds k = shouldRedact flds' k := by
  refine ⟨sanitizeValues_eq_map flds m, ?_, ?_⟩
  · simp [shouldRedact, fieldMatches, goContains, hk]
  · have hmap : ∀ (l : List String),
        l.any (fun w => fieldMatches w k) =
          (l.map goToLower).any (fun lw => hasSubList lw.data (goToLower k).data) := by
      intro l
      induction l with
      | nil => rfl
      | cons x xs ih =>
        simp only [List.map_cons, List.any_cons, ih]
        rfl
    unfold shouldRedact
    rw [hmap, hmap, hw]

/-- Evaluation of claim C1 at concrete data: the seeded fragment list
redacts UserPassword, keeps name, and matching is case-insensitive. -/
theorem sanitizeValues_redaction_spec_witness :
    sanitizeValues querySecretFields [("UserPassword", ["x"]), ("name", ["bob"])] =
      [("UserPassword", ["x"]), ("name", ["bob"])].map (redactEntry querySecretFields)
  ∧ shouldRedact querySecretFields "PASSWORD" = shouldRedact querySecretFields "Password"
  ∧ shouldRedact querySecretFields "PASSWORD" =
      shouldRedact ["PASSWORD", "PASSPHRASE", "PASSWD", "SECRET"] "PASSWORD" :=
  sanitizeValues_redaction_spec querySecretFields
    ["PASSWORD", "PASSPHRASE", "PASSWD", "SECRET"]
    [("UserPassword", ["x"]), ("name", ["bob"])] "PASSWORD" "Password"
    (by decide) (by decide)

/-- Claim C2 counterexample: a handler that panics with a nil value.  The
deferred recover() of RecoveryHandler stops the panic but returns nil, so
the report branch is skipped: no packet is submitted and no status is
written, against the claim that every panic value yields exactly one
packet and a 500. -/
theorem RecoveryHandler_nil_panic_counterexample :
    (RecoveryHandler [] panicNilHandler reqPlain).captured = []
  ∧ (RecoveryHandler [] panicNilHandler reqPlain).statusWrites = []
  ∧ (RecoveryHandler [] panicNilHandler reqPlain).outcome = .normal :=
  ⟨rfl, rfl, rfl⟩

/-- Claim C2 (amended): a panic with a non-nil value v makes the wrapped
call return normally, submit exactly one packet whose message is the
stringification of v, and write one 500; a normal completion, and likewise
a panic with a nil value, produces zero packets and zero status writes
(the nil panic is still suppressed). -/
theorem RecoveryHandler_spec (flds : List String) (handler : Request → HandlerOutcome)
    (r : Request) :
    (∀ s, handler r = .panics (.value s) →
      RecoveryHandler flds handler r =
        { outcome := .normal
          captured := [{ message := s, exceptionMessage := s, context := (NewHttp flds r).1 }]
          statusWrites := [StatusInternalServerError] })
  ∧ (handler r = .normal →
      RecoveryHandler flds handler r = { outcome := .normal, captured := [], statusWrites := [] })
  ∧ (handler r = .panics .nil →
      RecoveryHandler flds handler r = { outcome := .normal, captured := [], statusWrites := [] }) := by
  refine ⟨fun s h => ?_, fun h => ?_, fun h => ?_⟩ <;> simp [RecoveryHandler, h]

/-- Evaluation of claim C2 at the spec example: a handler panicking with
the value boom. -/
theorem RecoveryHandler_spec_witness :
    RecoveryHandler [] boomHandler reqPlain =
      { outcome := .normal
        captured := [{ message := "boom", exceptionMessage := "boom",
                       context := (NewHttp [] reqPlain).1 }]
        statusWrites := [StatusInternalServerError] } :=
  (RecoveryHandler_spec [] boomHandler reqPlain).1 "boom" rfl

/-- Claim C3 counterexample: under ReportHandler a panic with a nil value
is swallowed entirely: recover() already stopped it, the nil test fails,
so no packet is submitted and nothing is re-raised, against the claim that
every panic is reported once and then re-raised. -/
theorem ReportHandler_nil_panic_counterexample :
    (ReportHandler [] panicNilHandler reqPlain).captured = []
  ∧ (ReportHandler [] panicNilHandler reqPlain).outcome = .normal :=
  ⟨rfl, rfl⟩

/-- Claim C3 (amended): a panic with a non-nil value v makes the wrapped
call submit exactly one packet whose message is the stringification of v,
write the 500 status, and then re-raise a panic carrying the original
value; a normal completion, and likewise a panic with a nil value,
produces no packet, no status write and no re-raise. -/
theorem ReportHandler_spec (flds : List String) (handler : Request → HandlerOutcome)
    (r : Request) :
    (∀ s, handler r = .panics (.value s) →
      ReportHandler flds handler r =
        { outcome := .panics (.value s)
          captured := [{ message := s, exceptionMessage := s, context := (NewHttp flds r).1 }]
          statusWrites := [StatusInternalServerError] })
  ∧ (handler r = .normal →
      ReportHandler flds handler r = { outcome := .normal, captured := [], statusWrites := [] })
  ∧ (handler r = .panics .nil →
      ReportHandler flds handler r = { outcome := .normal, captured := [], statusWrites := [] }) := by
  refine ⟨fun s h => ?_, fun h => ?_, fun h => ?_⟩ <;> simp [ReportHandler, h]

/-- Evaluation of claim C3 at the spec example: the boom panic is reported
once and re-raised with the same value. -/
theorem ReportHandler_spec_witness :
    ReportHandler [] boomHandler reqPlain =
      { outcome := .panics (.value "boom")
        captured := [{ message := "boom", exceptionMessage := "boom",
                       context := (NewHttp [] reqPlain).1 }]
        statusWrites := [StatusInternalServerError] } :=
  (ReportHandler_spec [] boomHandler reqPlain).1 "boom" rfl

/-- Claim C4 counterexample: NewHttp passes req.Header itself, not a copy,
to sanitizeValues, which assigns into it; after the call the caller sees
the Password header replaced by the placeholder. -/
theorem NewHttp_mutates_header_counterexample :
    (NewHttp querySecretFields reqPw).2.Header ≠ reqPw.Header := by decide

/-- Claim C4 (amended): NewHttp leaves the request method, TLS state,
host, path, query parameters and peer address unchanged, but it redacts
the request headers in place: afterwards the caller sees the entrywise
redaction of its own header map.  The query map is safe only because
req.URL.Query() hands sanitizeValues a fresh copy. -/
theorem NewHttp_request_effect (flds : List String) (req : Request) :
    (NewHttp flds req).2.Method = req.Method
  ∧ (NewHttp flds req).2.TLS = req.TLS
  ∧ (NewHttp flds req).2.Host = req.Host
  ∧ (NewHttp flds req).2.Path = req.Path
  ∧ (NewHttp flds req).2.Query = req.Query
  ∧ (NewHttp flds req).2.RemoteAddr = req.RemoteAddr
  ∧ (NewHttp flds req).2.Header = req.Header.map (redactEntry flds) := by
  refine ⟨rfl, rfl, rfl, rfl, rfl, rfl, ?_⟩
  exact sanitizeValues_eq_map flds req.Header

/-- Claim C5: the url of the snapshot is scheme://host/path with no query
string appended, and the scheme is https exactly when the connection is
TLS-terminated or the X-Forwarded-Proto header equals https. -/
theorem NewHttp_url_scheme (flds : List String) (req : Request) :
    (req.TLS = true →
      (NewHttp flds req).1.URL = "https://" ++ req.Host ++ req.Path)
  ∧ (req.TLS = false → headerGet req.Header "X-Forwarded-Proto" = "https" →
      (NewHttp flds req).1.URL = "https://" ++ req.Host ++ req.Path)
  ∧ (req.TLS = false → headerGet req.Header "X-Forwarded-Proto" ≠ "https" →
      (NewHttp flds req).1.URL = "http://" ++ req.Host ++ req.Path) := by
  have hURL : (NewHttp flds req).1.URL =
      (if req.TLS || (headerGet req.Header "X-Forwarded-Proto" == "https")
        then "https" else "http") ++ "://" ++ req.Host ++ req.Path := rfl
  have hs : ("https" : String) ++ "://" = "https://" := rfl
  have hh : ("http" : String) ++ "://" = "http://" := rfl
  refine ⟨fun h1 => ?_, fun h1 h2 => ?_, fun h1 h2 => ?_⟩ <;>
    rw [hURL] <;> simp [h1, hs, hh, *]

/-- Evaluation of claim C5 at the three scheme cases of the spec. -/
theorem NewHttp_url_scheme_witness :
    (NewHttp [] reqTLS).1.URL = "https://" ++ reqTLS.Host ++ reqTLS.Path
  ∧ (NewHttp [] reqFwd).1.URL = "https://" ++ reqFwd.Host ++ reqFwd.Path
  ∧ (NewHttp [] reqPlain).1.URL = "http://" ++ reqPlain.Host ++ reqPlain.Path :=
  ⟨(NewHttp_url_scheme [] reqTLS).1 rfl,
   (NewHttp_url_scheme [] reqFwd).2.1 rfl rfl,
   (NewHttp_url_scheme [] reqPlain).2.2 rfl (by decide)⟩

/-- Claim C6: registration is monotone.  After appending a fragment F,
every key redacted before is still redacted (and its map entry is
overwritten with the placeholder), every key matching F is redacted, no
fragment is removed, and registering a duplicate fragment changes
nothing about which keys match. -/
theorem AddSanitizeField_monotone (flds : List String) (F k : String) (m : Smap) :
    (shouldRedact flds k = true → shouldRedact (AddSanitizeField flds F) k = true)
  ∧ (fieldMatches F k = true → shouldRedact (AddSanitizeField flds F) k = true)
  ∧ (shouldRedact flds k = true → ∀ v, (k, v) ∈ m →
      (k, [mask]) ∈ sanitizeValues (AddSanitizeField flds F) m)
  ∧ (∀ w, w ∈ flds → w ∈ AddSanitizeField flds F)
  ∧ (F ∈ flds → shouldRedact (AddSanitizeField flds F) k = shouldRedact flds k) := by
  refine ⟨fun h => ?_, fun h => ?_, fun h v hv => ?_, fun w hw => ?_, fun hF => ?_⟩
  · simp [shouldRedact_append, h]
  · simp [shouldRedact_append, h]
  · rw [sanitizeValues_eq_map]
    have hred : redactEntry (AddSanitizeField flds F) (k, v) = (k, [mask]) := by
      simp [redactEntry, shouldRedact_append, h]
    have hm := List.mem_map_of_mem (redactEntry (AddSanitizeField flds F)) hv
    rwa [hred] at hm
  · simp [AddSanitizeField]
    exact Or.inl hw
  · rw [shouldRedact_append]
    cases hmF : fieldMatches F k with
    | false => simp
    | true =>
      have hsr : shouldRedact flds k = true := List.any_eq_true.mpr ⟨F, hF, hmF⟩
      simp [hsr]

/-- Evaluation of claim C6: after registering token, the previously
redacted UserPassword key is still redacted (and overwritten in a sample
map) and the new ApiToken key is redacted too. -/
theorem AddSanitizeField_monotone_witness :
    shouldRedact (AddSanitizeField querySecretFields "token") "UserPassword" = true
  ∧ ("UserPassword", [mask]) ∈
      sanitizeValues (AddSanitizeField querySecretFields "token") [("UserPassword", ["x"])]
  ∧ shouldRedact (AddSanitizeField querySecretFields "token") "ApiToken" = true :=
  ⟨(AddSanitizeField_monotone querySecretFields "token" "UserPassword" []).1 (by decide),
   (AddSanitizeField_monotone querySecretFields "token" "UserPassword"
      [("UserPassword", ["x"])]).2.2.1 (by decide) ["x"] (by decide),
   (AddSanitizeField_monotone querySecretFields "token" "ApiToken" []).2.1 (by decide)⟩

/-- Claim C7: the env mapping of the snapshot holds exactly the entries
REMOTE_ADDR and REMOTE_PORT when the peer address splits as host:port, and
stays unset when the split fails; no error is surfaced either way. -/
theorem NewHttp_env_spec (flds : List String) (req : Request) :
    (∀ a p, splitHostPort req.RemoteAddr = some (a, p) →
      (NewHttp flds req).1.Env = some [("REMOTE_ADDR", a), ("REMOTE_PORT", p)])
  ∧ (splitHostPort req.RemoteAddr = none → (NewHttp flds req).1.Env = none) := by
  constructor
  · intro a p h
    simp [NewHttp, h]
  · intro h
    simp [NewHttp, h]

/-- Evaluation of claim C7 at the two spec examples. -/
theorem NewHttp_env_spec_witness :
    (NewHttp [] reqPlain).1.Env = some [("REMOTE_ADDR", "203.0.113.5"), ("REMOTE_PORT", "54321")]
  ∧ (NewHttp [] reqBadAddr).1.Env = none :=
  ⟨(NewHttp_env_spec [] reqPlain).1 "203.0.113.5" "54321" rfl,
   (NewHttp_env_spec [] reqBadAddr).2 rfl⟩

/-- Claim C8: the cookies field is the raw Cookie header of the request,
verbatim, whatever fragments are registered: the composite literal reads
the Cookie header before the header map is sanitized, so two snapshots
under different fragment lists agree on it. -/
theorem NewHttp_cookies_verbatim (flds flds' : List String) (req : Request) :
    (NewHttp flds req).1.Cookies = headerGet req.Header "Cookie"
  ∧ (NewHttp flds req).1.Cookies = (NewHttp flds' req).1.Cookies :=
  ⟨rfl, rfl⟩

/-- Claim C9 counterexample: NewHttp copies req.Method verbatim, so a
request whose method string is empty yields an Http record whose method
field is empty, against the claimed invariant. -/
theorem NewHttp_method_empty_counterexample :
    (NewHttp [] reqEmptyMethod).1.Method = "" := rfl

/-- Claim C9 (amended): the url field is always non-empty, since it starts
with the scheme; the method field equals the request method verbatim, so
it is non-empty exactly when the request method is. -/
theorem NewHttp_url_nonempty_method_copied (flds : List String) (req : Request) :
    (NewHttp flds req).1.URL ≠ "" ∧ (NewHttp flds req).1.Method = req.Method := by
  constructor
  · have key : ∀ (p : String), 0 < p.length →
        p ++ "://" ++ req.Host ++ req.Path ≠ "" := by
      intro p hp heq
      have hl := congrArg String.length heq
      simp only [String.length_append, String.length_empty] at hl
      omega
    have hURL : (NewHttp flds req).1.URL =
        (if req.TLS || (headerGet req.Header "X-Forwarded-Proto" == "https")
          then "https" else "http") ++ "://" ++ req.Host ++ req.Path := rfl
    rw [hURL]
    split
    · exact key "https" (by decide)
    · exact key "http" (by decide)
  · rfl

/-- Claim C10: sanitizeValues is idempotent for a fixed fragment list, and
it preserves the key sequence of the map: keys are never added, removed or
renamed, only value lists replaced. -/
theorem sanitizeValues_idempotent_keys (flds : List String) (m : Smap) :
    sanitizeValues flds (sanitizeValues flds m) = sanitizeValues flds m
  ∧ (sanitizeValues flds m).map Prod.fst = m.map Prod.fst := by
  constructor
  · rw [sanitizeValues_eq_map, sanitizeValues_eq_map, List.map_map]
    exact List.map_congr_left fun kv _ => redactEntry_idem flds kv
  · rw [sanitizeValues_eq_map, List.map_map]
    exact List.map_congr_left fun kv _ => redactEntry_fst flds kv

end Raven
